import Mathlib

/-!
Verification of the toll-booth ETL script `scripts/fetch_tolls.py`.

The script fetches OSM elements (nodes and ways), partitions them into
toll-booth nodes and highway ways, matches each toll node to the first way
containing it, and emits one record per toll node.  We embed the element
model, the `parse_elements` function and the main pipeline's data flow as
executable Lean definitions, modelling Python dictionaries as association
lists with insert-or-update-in-place semantics (Python dicts preserve
insertion order), Python `or` as its truthiness-based choice on optional
strings, and missing JSON fields as `Option`.
-/

namespace FetchTolls

/-- A tag map, as the Python `dict` of string tags: lookup finds the first
(and by dict semantics only) binding of a key. -/
abbrev Tags := List (String × String)

/-- `tags.get(k)` on a Python dict of tags. -/
def Tags.get (tags : Tags) (k : String) : Option String :=
  (tags.find? (fun p => p.1 = k)).map (fun p => p.2)

/-- Python truthiness of an optional string: `None` and `""` are falsy. -/
def truthy : Option String → Bool
  | none => false
  | some s => !(s = "")

/-- Python `a or b` on optional strings: `b` when `a` is `None` or `""`. -/
def pyOr (a b : Option String) : Option String :=
  if truthy a then a else b

/-- An Overpass element, as consumed by `parse_elements`: a node with
optional tags and optional coordinates, or a way with optional tags and an
optional member-node list.  Coordinates pass through the script untouched,
so we represent them as exact rationals. -/
inductive Element where
  | node (id : Nat) (tags : Option Tags) (lat lon : Option ℚ)
  | way (id : Nat) (tags : Option Tags) (nodes : Option (List Nat))
deriving DecidableEq

/-- The element's identifier (`el.get('id')`). -/
def Element.eid : Element → Nat
  | .node id _ _ _ => id
  | .way id _ _ => id

/-- The dict stored in `toll_nodes[el_id]`. -/
structure TollNodeData where
  osm_id : Nat
  lat : Option ℚ
  lon : Option ℚ
  tags : Tags
deriving DecidableEq

/-- The dict stored in `ways[el_id]` for a highway-tagged way. -/
structure WayData where
  highway : String
  name : Option String
  ref : Option String
  toll : Option String
  operator : Option String
deriving DecidableEq

/-- One output row of `parse_elements`. -/
structure TollRecord where
  osm_id : Nat
  name : Option String
  operator : Option String
  highway_type : Option String
  highway_name : Option String
  highway_ref : Option String
  lat : Option ℚ
  lon : Option ℚ
deriving DecidableEq

/-- Lookup in a Python dict modelled as an association list. -/
def dlookup (k : Nat) : List (Nat × α) → Option α
  | [] => none
  | (k', v) :: rest => if k' = k then some v else dlookup k rest

/-- `d[k] = v` on a Python dict: updating an existing key keeps its
position, a new key is appended at the end. -/
def dinsert (k : Nat) (v : α) : List (Nat × α) → List (Nat × α)
  | [] => [(k, v)]
  | (k', v') :: rest =>
    if k' = k then (k, v) :: rest else (k', v') :: dinsert k v rest

/-- The keys of a dict, in iteration order. -/
def keys (l : List (Nat × α)) : List Nat := l.map Prod.fst

/-- The three dicts built by the first loop of `parse_elements`. -/
structure ParseState where
  toll_nodes : List (Nat × TollNodeData)
  ways : List (Nat × WayData)
  way_nodes : List (Nat × List Nat)
deriving DecidableEq

/-- One iteration of the first loop of `parse_elements`: classify the
element and update the dicts.  A node is kept when `tags.get('barrier') ==
'toll_booth'`; a way is kept when `tags.get('highway')` is truthy. -/
def processElement (st : ParseState) (el : Element) : ParseState :=
  match el with
  | .node id tags lat lon =>
    let tgs := tags.getD []
    if Tags.get tgs "barrier" = some "toll_booth" then
      { st with toll_nodes := dinsert id ⟨id, lat, lon, tgs⟩ st.toll_nodes }
    else st
  | .way id tags nodes =>
    let tgs := tags.getD []
    if truthy (Tags.get tgs "highway") then
      { st with
        ways := dinsert id
          ⟨(Tags.get tgs "highway").getD "",
           pyOr (Tags.get tgs "name") (Tags.get tgs "ref"),
           Tags.get tgs "ref",
           Tags.get tgs "toll",
           Tags.get tgs "operator"⟩ st.ways,
        way_nodes := dinsert id (nodes.getD []) st.way_nodes }
    else st

/-- The first loop of `parse_elements`, from a given starting state. -/
def parseStateFrom (st : ParseState) (es : List Element) : ParseState :=
  es.foldl processElement st

/-- The dicts after the first loop of `parse_elements`. -/
def parseState (es : List Element) : ParseState :=
  parseStateFrom ⟨[], [], []⟩ es

/-- The matching loop body for one toll node: scan `way_nodes` in
iteration order, stop at the first way containing the node, and look its
attributes up in `ways` (`highway_info` stays `None` when no way contains
the node). -/
def matchToll (st : ParseState) (toll_id : Nat) : Option WayData :=
  match st.way_nodes.find? (fun p => toll_id ∈ p.2) with
  | none => none
  | some (way_id, _) => dlookup way_id st.ways

/-- Build the output row for one toll node from its data and the optional
matched highway info, exactly as the `rows.append` in the source. -/
def mkRecord (td : TollNodeData) (hi : Option WayData) : TollRecord :=
  { osm_id := td.osm_id
    name := pyOr (pyOr (Tags.get td.tags "name") (Tags.get td.tags "ref"))
      (hi.bind WayData.name)
    operator := pyOr (Tags.get td.tags "operator") (hi.bind WayData.operator)
    highway_type := hi.map WayData.highway
    highway_name := hi.bind WayData.name
    highway_ref := hi.bind WayData.ref
    lat := td.lat
    lon := td.lon }

/-- The result of `parse_elements`: the rows of the returned DataFrame in
order, and the printed matched count. -/
structure ParseResult where
  rows : List TollRecord
  matched : Nat
deriving DecidableEq

/-- `parse_elements`: build the dicts, then one row per toll node in dict
iteration order; `matched` counts the toll nodes whose first containing
way yields highway info. -/
def parse_elements (es : List Element) : ParseResult :=
  let st := parseState es
  { rows := st.toll_nodes.map (fun p => mkRecord p.2 (matchToll st p.1))
    matched :=
      (st.toll_nodes.filter (fun p => (matchToll st p.1).isSome)).length }

/-- The records kept by `df.dropna(subset=['lat', 'lon'])` in `__main__`:
rows with both coordinates present. -/
def validRecords (es : List Element) : List TollRecord :=
  (parse_elements es).rows.filter (fun r => r.lat.isSome && r.lon.isSome)

/-- Observable outcome of one run of `__main__`: the process exit status,
and the record lists handed to the CSV writer and to `save_to_db` (`none`
when that step was never reached, or, for the CSV, when its write
failed). -/
structure RunResult where
  exitCode : Nat
  csvOut : Option (List TollRecord)
  dbOut : Option (List TollRecord)
deriving DecidableEq

/-- The control flow of `__main__`: a failed fetch exits 1; an empty
filtered DataFrame exits 1; a CSV failure is only logged; a `save_to_db`
failure exits 1; otherwise the run ends with status 0. -/
def mainRun (fetched : Option (List Element)) (csvOk dbOk : Bool) :
    RunResult :=
  match fetched with
  | none => ⟨1, none, none⟩
  | some es =>
    let df := validRecords es
    if df.length = 0 then ⟨1, none, none⟩
    else
      let csv := if csvOk then some df else none
      if dbOk then ⟨0, csv, some df⟩ else ⟨1, csv, some df⟩

/-- Does this element count as a toll-booth node? -/
def isTollBoothNode : Element → Bool
  | .node _ tags _ _ => Tags.get (tags.getD []) "barrier" = some "toll_booth"
  | .way _ _ _ => false

/-- Does this element count as a highway-classified way? -/
def isHighwayWay : Element → Bool
  | .node _ _ _ _ => false
  | .way _ tags _ => truthy (Tags.get (tags.getD []) "highway")

/-- The member-node list of an element (empty for nodes and for ways
without a `nodes` field), as `el.get('nodes', [])`. -/
def wayNodesOf : Element → List Nat
  | .way _ _ nodes => nodes.getD []
  | .node _ _ _ _ => []

theorem dlookup_dinsert (k k' : Nat) (v : α) (l : List (Nat × α)) :
    dlookup k' (dinsert k v l) = if k = k' then some v else dlookup k' l := by
  induction l with
  | nil => simp [dinsert, dlookup, eq_comm]
  | cons p rest ih =>
    obtain ⟨a, b⟩ := p
    by_cases hak : a = k
    · subst hak
      by_cases hk : a = k'
      · simp [dinsert, dlookup, hk]
      · simp [dinsert, dlookup, hk]
    · by_cases hk : a = k'
      · subst hk
        have : k ≠ a := fun h => hak h.symm
        simp [dinsert, dlookup, hak, this]
      · simp [dinsert, dlookup, hak, hk, ih]

theorem mem_keys_dinsert (a k : Nat) (v : α) (l : List (Nat × α)) :
    a ∈ keys (dinsert k v l) ↔ a = k ∨ a ∈ keys l := by
  induction l with
  | nil => simp [dinsert, keys]
  | cons p rest ih =>
    obtain ⟨b, c⟩ := p
    by_cases hbk : b = k
    · subst hbk
      simp [dinsert, keys]
    · simp only [dinsert, if_neg hbk, keys, List.map_cons, List.mem_cons]
      rw [show (keys (dinsert k v rest) = List.map Prod.fst (dinsert k v rest))
        from rfl] at ih
      rw [ih]
      tauto

theorem nodup_keys_dinsert (k : Nat) (v : α) (l : List (Nat × α))
    (h : (keys l).Nodup) : (keys (dinsert k v l)).Nodup := by
  induction l with
  | nil => simp [dinsert, keys]
  | cons p rest ih =>
    obtain ⟨b, c⟩ := p
    simp only [keys, List.map_cons, List.nodup_cons] at h
    by_cases hbk : b = k
    · subst hbk
      rw [show dinsert b v ((b, c) :: rest) = (b, v) :: rest by simp [dinsert]]
      simp only [keys, List.map_cons, List.nodup_cons]
      exact ⟨h.1, h.2⟩
    · have hrest := ih h.2
      simp only [dinsert, if_neg hbk, keys, List.map_cons, List.nodup_cons]
      refine ⟨?_, hrest⟩
      intro hmem
      rcases (mem_keys_dinsert b k v rest).mp hmem with h1 | h2
      · exact hbk h1
      · exact h.1 h2

theorem mem_of_mem_dinsert (x : Nat × α) (k : Nat) (v : α) (l : List (Nat × α))
    (h : x ∈ dinsert k v l) : x = (k, v) ∨ x ∈ l := by
  induction l with
  | nil => simpa [dinsert] using h
  | cons p rest ih =>
    obtain ⟨b, c⟩ := p
    by_cases hbk : b = k
    · subst hbk
      rw [show dinsert b v ((b, c) :: rest) = (b, v) :: rest by
        simp [dinsert]] at h
      cases List.mem_cons.mp h with
      | inl h1 => exact Or.inl h1
      | inr h2 => exact Or.inr (List.mem_cons_of_mem _ h2)
    · rw [show dinsert k v ((b, c) :: rest) = (b, c) :: dinsert k v rest by
        simp [dinsert, hbk]] at h
      cases List.mem_cons.mp h with
      | inl h1 => exact Or.inr (List.mem_cons.mpr (Or.inl h1))
      | inr h2 =>
        cases ih h2 with
        | inl h3 => exact Or.inl h3
        | inr h4 => exact Or.inr (List.mem_cons_of_mem _ h4)

theorem dlookup_isSome_iff (k : Nat) (l : List (Nat × α)) :
    (dlookup k l).isSome = true ↔ k ∈ keys l := by
  induction l with
  | nil => simp [dlookup, keys]
  | cons p rest ih =>
    obtain ⟨b, c⟩ := p
    by_cases hbk : b = k
    · subst hbk
      simp [dlookup, keys]
    · have hkb : ¬(k = b) := fun hh => hbk hh.symm
      simp [dlookup, keys, hbk, hkb, ih]

theorem mem_of_dlookup_eq_some (k : Nat) (v : α) (l : List (Nat × α))
    (h : dlookup k l = some v) : (k, v) ∈ l := by
  induction l with
  | nil => simp [dlookup] at h
  | cons p rest ih =>
    obtain ⟨b, c⟩ := p
    by_cases hbk : b = k
    · subst hbk
      have hcv : c = v := by simpa [dlookup] using h
      subst hcv
      exact List.mem_cons_self _ _
    · simp only [dlookup, if_neg hbk] at h
      exact List.mem_cons_of_mem _ (ih h)

/-- Case analysis on one step of the first loop: an element either leaves
the state unchanged (and is neither a toll-booth node nor a highway way),
or is a toll-booth node inserted into `toll_nodes`, or is a highway way
inserted into `ways` and `way_nodes`. -/
theorem processElement_shape (st : ParseState) (el : Element) :
    (processElement st el = st ∧ isTollBoothNode el = false ∧
      isHighwayWay el = false) ∨
    (∃ id tgs lat lon, el = .node id tgs lat lon ∧
      Tags.get (tgs.getD []) "barrier" = some "toll_booth" ∧
      processElement st el =
        { st with toll_nodes :=
            dinsert id ⟨id, lat, lon, tgs.getD []⟩ st.toll_nodes }) ∨
    (∃ id tgs nodes, el = .way id tgs nodes ∧
      truthy (Tags.get (tgs.getD []) "highway") = true ∧
      processElement st el =
        { st with
          ways := dinsert id
            ⟨(Tags.get (tgs.getD []) "highway").getD "",
             pyOr (Tags.get (tgs.getD []) "name") (Tags.get (tgs.getD []) "ref"),
             Tags.get (tgs.getD []) "ref",
             Tags.get (tgs.getD []) "toll",
             Tags.get (tgs.getD []) "operator"⟩ st.ways,
          way_nodes := dinsert id (nodes.getD []) st.way_nodes }) := by
  cases el with
  | node id tags lat lon =>
    by_cases h : Tags.get (tags.getD []) "barrier" = some "toll_booth"
    · exact Or.inr (Or.inl ⟨id, tags, lat, lon, rfl, h,
        by simp [processElement, h]⟩)
    · refine Or.inl ⟨by simp [processElement, h], ?_, rfl⟩
      simp [isTollBoothNode, h]
  | way id tags nodes =>
    by_cases h : truthy (Tags.get (tags.getD []) "highway") = true
    · exact Or.inr (Or.inr ⟨id, tags, nodes, rfl, h,
        by simp [processElement, h]⟩)
    · refine Or.inl ⟨by simp [processElement, h], rfl, ?_⟩
      simpa [isHighwayWay] using h

/-- An invariant preserved by every step of the first loop holds of the
state after the loop. -/
theorem parseStateFrom_invariant (P : ParseState → Prop)
    (hstep : ∀ st el, P st → P (processElement st el)) :
    ∀ (es : List Element) (st : ParseState), P st → P (parseStateFrom st es) := by
  intro es
  induction es with
  | nil => intro st hst; exact hst
  | cons el rest ih => intro st hst; exact ih _ (hstep st el hst)

theorem parseStateFrom_cons (st : ParseState) (el : Element) (es : List Element) :
    parseStateFrom st (el :: es) = parseStateFrom (processElement st el) es := rfl

theorem parseState_append_singleton (es : List Element) (el : Element) :
    parseState (es ++ [el]) = processElement (parseState es) el := by
  simp [parseState, parseStateFrom, List.foldl_append]

/-- Every entry of `toll_nodes` records its own key as `osm_id`. -/
theorem toll_nodes_osm_id (es : List Element) :
    ∀ p ∈ (parseState es).toll_nodes, p.2.osm_id = p.1 := by
  refine parseStateFrom_invariant
    (fun st => ∀ p ∈ st.toll_nodes, p.2.osm_id = p.1) ?_ es ⟨[], [], []⟩ ?_
  · intro st el hst
    rcases processElement_shape st el with ⟨heq, _, _⟩ |
      ⟨id, tgs, lat, lon, _, _, heq⟩ | ⟨id, tgs, nodes, _, _, heq⟩
    · rw [heq]; exact hst
    · rw [heq]
      intro p hp
      rcases mem_of_mem_dinsert p id ⟨id, lat, lon, tgs.getD []⟩
        st.toll_nodes hp with h1 | h2
      · subst h1; rfl
      · exact hst p h2
    · rw [heq]; exact hst
  · intro p hp; simp at hp

/-- The keys of `toll_nodes` are pairwise distinct (it is a dict). -/
theorem nodup_keys_toll_nodes (es : List Element) :
    (keys (parseState es).toll_nodes).Nodup := by
  refine parseStateFrom_invariant (fun st => (keys st.toll_nodes).Nodup)
    ?_ es ⟨[], [], []⟩ ?_
  · intro st el hst
    rcases processElement_shape st el with ⟨heq, _, _⟩ |
      ⟨id, tgs, lat, lon, _, _, heq⟩ | ⟨id, tgs, nodes, _, _, heq⟩
    · rw [heq]; exact hst
    · rw [heq]; exact nodup_keys_dinsert _ _ _ hst
    · rw [heq]; exact hst
  · simp [keys]

/-- `ways` and `way_nodes` always have the same keys: they are written
together, so the `ways.get(way_id)` after a successful membership test
never misses. -/
theorem ways_way_nodes_keys (es : List Element) (k : Nat) :
    (dlookup k (parseState es).ways).isSome =
      (dlookup k (parseState es).way_nodes).isSome := by
  refine parseStateFrom_invariant
    (fun st => ∀ k2, (dlookup k2 st.ways).isSome =
      (dlookup k2 st.way_nodes).isSome) ?_ es ⟨[], [], []⟩ ?_ k
  · intro st el hst
    rcases processElement_shape st el with ⟨heq, _, _⟩ |
      ⟨id, tgs, lat, lon, _, _, heq⟩ | ⟨id, tgs, nodes, _, _, heq⟩
    · rw [heq]; exact hst
    · rw [heq]; exact hst
    · rw [heq]
      intro k2
      simp only [dlookup_dinsert]
      by_cases hid : id = k2
      · simp [hid]
      · simp [hid, hst k2]
  · intro k2; simp [dlookup]

/-- A key is in `toll_nodes` exactly when some toll-booth node element
with that identifier occurs in the input (from a given starting state). -/
theorem mem_keys_toll_nodes_from (es : List Element) :
    ∀ (st : ParseState) (k : Nat),
      k ∈ keys (parseStateFrom st es).toll_nodes ↔
        k ∈ keys st.toll_nodes ∨
          ∃ el ∈ es, isTollBoothNode el = true ∧ Element.eid el = k := by
  induction es with
  | nil => intro st k; simp [parseStateFrom]
  | cons el rest ih =>
    intro st k
    rw [parseStateFrom_cons, ih]
    rcases processElement_shape st el with ⟨heq, hnt, _⟩ |
      ⟨id, tgs, lat, lon, hel, hbar, heq⟩ | ⟨id, tgs, nodes, hel, hhw, heq⟩
    · rw [heq]
      constructor
      · rintro (hm | ⟨el2, hmem, hp⟩)
        · exact Or.inl hm
        · exact Or.inr ⟨el2, List.mem_cons_of_mem _ hmem, hp⟩
      · rintro (hm | ⟨el2, hmem, hp⟩)
        · exact Or.inl hm
        · cases List.mem_cons.mp hmem with
          | inl h2 => subst h2; simp [hnt] at hp
          | inr h2 => exact Or.inr ⟨el2, h2, hp⟩
    · have htn : (processElement st el).toll_nodes =
          dinsert id ⟨id, lat, lon, tgs.getD []⟩ st.toll_nodes := by rw [heq]
      subst hel
      have htoll : isTollBoothNode (Element.node id tgs lat lon) = true := by
        simp [isTollBoothNode, hbar]
      rw [show keys (processElement st (Element.node id tgs lat lon)).toll_nodes
          = keys (dinsert id ⟨id, lat, lon, tgs.getD []⟩ st.toll_nodes)
        from congrArg keys htn, mem_keys_dinsert]
      constructor
      · rintro ((rfl | hm) | ⟨el2, hmem, hp⟩)
        · exact Or.inr ⟨_, List.mem_cons_self _ _, htoll, rfl⟩
        · exact Or.inl hm
        · exact Or.inr ⟨el2, List.mem_cons_of_mem _ hmem, hp⟩
      · rintro (hm | ⟨el2, hmem, hp⟩)
        · exact Or.inl (Or.inr hm)
        · cases List.mem_cons.mp hmem with
          | inl h2 => subst h2; exact Or.inl (Or.inl hp.2.symm)
          | inr h2 => exact Or.inr ⟨el2, h2, hp⟩
    · rw [heq]
      subst hel
      constructor
      · rintro (hm | ⟨el2, hmem, hp⟩)
        · exact Or.inl hm
        · exact Or.inr ⟨el2, List.mem_cons_of_mem _ hmem, hp⟩
      · rintro (hm | ⟨el2, hmem, hp⟩)
        · exact Or.inl hm
        · cases List.mem_cons.mp hmem with
          | inl h2 => subst h2; simp [isTollBoothNode] at hp
          | inr h2 => exact Or.inr ⟨el2, h2, hp⟩

theorem mem_keys_toll_nodes (es : List Element) (k : Nat) :
    k ∈ keys (parseState es).toll_nodes ↔
      ∃ el ∈ es, isTollBoothNode el = true ∧ Element.eid el = k := by
  rw [parseState, mem_keys_toll_nodes_from]
  simp [keys]

/-- Every entry of `ways` comes from a highway-classified way element of
the input, and stores as display name the `name` tag or, when that is
missing or empty, the `ref` tag. -/
theorem ways_source (es : List Element) :
    ∀ (st : ParseState) (q : Nat × WayData), q ∈ (parseStateFrom st es).ways →
      q ∈ st.ways ∨
      ∃ tgs nodes, Element.way q.1 tgs nodes ∈ es ∧
        truthy (Tags.get (tgs.getD []) "highway") = true ∧
        q.2 = ⟨(Tags.get (tgs.getD []) "highway").getD "",
          pyOr (Tags.get (tgs.getD []) "name") (Tags.get (tgs.getD []) "ref"),
          Tags.get (tgs.getD []) "ref", Tags.get (tgs.getD []) "toll",
          Tags.get (tgs.getD []) "operator"⟩ := by
  induction es with
  | nil => intro st q hq; exact Or.inl hq
  | cons el rest ih =>
    intro st q hq
    rw [parseStateFrom_cons] at hq
    rcases ih _ q hq with hmem | ⟨tgs2, nodes2, hmem, hh, hv⟩
    · rcases processElement_shape st el with ⟨heq, _, _⟩ |
        ⟨id, tgs, lat, lon, hel, hbar, heq⟩ | ⟨id, tgs, nodes, hel, hhw, heq⟩
      · rw [heq] at hmem; exact Or.inl hmem
      · rw [heq] at hmem; exact Or.inl hmem
      · rw [heq] at hmem
        rcases mem_of_mem_dinsert _ _ _ _ hmem with h1 | h2
        · subst hel; subst h1
          exact Or.inr ⟨tgs, nodes, List.mem_cons_self _ _, hhw, rfl⟩
        · exact Or.inl h2
    · exact Or.inr ⟨tgs2, nodes2, List.mem_cons_of_mem _ hmem, hh, hv⟩

/-- Every entry of `way_nodes` comes from a highway-classified way element
of the input and stores that way's member-node list. -/
theorem way_nodes_source (es : List Element) :
    ∀ (st : ParseState) (q : Nat × List Nat),
      q ∈ (parseStateFrom st es).way_nodes →
      q ∈ st.way_nodes ∨
      ∃ tgs nodes, Element.way q.1 tgs nodes ∈ es ∧
        truthy (Tags.get (tgs.getD []) "highway") = true ∧
        q.2 = nodes.getD [] := by
  induction es with
  | nil => intro st q hq; exact Or.inl hq
  | cons el rest ih =>
    intro st q hq
    rw [parseStateFrom_cons] at hq
    rcases ih _ q hq with hmem | ⟨tgs2, nodes2, hmem, hh, hv⟩
    · rcases processElement_shape st el with ⟨heq, _, _⟩ |
        ⟨id, tgs, lat, lon, hel, hbar, heq⟩ | ⟨id, tgs, nodes, hel, hhw, heq⟩
      · rw [heq] at hmem; exact Or.inl hmem
      · rw [heq] at hmem; exact Or.inl hmem
      · rw [heq] at hmem
        rcases mem_of_mem_dinsert _ _ _ _ hmem with h1 | h2
        · subst hel; subst h1
          exact Or.inr ⟨tgs, nodes, List.mem_cons_self _ _, hhw, rfl⟩
        · exact Or.inl h2
    · exact Or.inr ⟨tgs2, nodes2, List.mem_cons_of_mem _ hmem, hh, hv⟩

/-- The row built for a toll node in the dict is one of the output rows. -/
theorem mkRecord_mem_rows (es : List Element) (tid : Nat) (td : TollNodeData)
    (h : dlookup tid (parseState es).toll_nodes = some td) :
    mkRecord td (matchToll (parseState es) tid) ∈ (parse_elements es).rows := by
  have hmem := mem_of_dlookup_eq_some tid td _ h
  exact List.mem_map.mpr ⟨(tid, td), hmem, rfl⟩

/-- `find?` returns the first element satisfying the predicate: anything
after that first hit is ignored. -/
theorem find?_middle {α : Type} (p : α → Bool) (l1 : List α) (x : α)
    (l2 : List α) (h1 : ∀ y ∈ l1, p y = false) (hx : p x = true) :
    (l1 ++ x :: l2).find? p = some x := by
  induction l1 with
  | nil =>
    rw [List.nil_append]
    exact List.find?_cons_of_pos _ hx
  | cons a l ih =>
    have ha : p a = false := h1 a (List.mem_cons_self _ _)
    rw [List.cons_append, List.find?_cons_of_neg _ (by simp [ha])]
    exact ih (fun y hy => h1 y (List.mem_cons_of_mem _ hy))

/-- The spec scenario input: one toll-booth node on one trunk way. -/
def c1_input : List Element :=
  [.node 1 (some [("barrier", "toll_booth"), ("name", "Booth A")])
    (some 10) (some 20),
   .way 100 (some [("highway", "trunk"), ("ref", "NH44")]) (some [1, 2, 3])]

/-- The record actually produced for the spec scenario. -/
def c1_record : TollRecord :=
  ⟨1, some "Booth A", none, some "trunk", some "NH44", some "NH44",
   some 10, some 20⟩

/-- C1 counterexample: on the spec scenario input, the output is not the
record the spec gives, because the claimed record has a null highway_name
while the code stores the way's `ref` as its display name. -/
theorem c1_claimed_record_false :
    ¬ ((parse_elements c1_input).rows =
      [⟨1, some "Booth A", none, some "trunk", none, some "NH44",
        some 10, some 20⟩]) := by
  decide

/-- C1 (amended): on the spec scenario input, `parse_elements` produces
exactly one record, identical to the spec's except that highway_name is
`"NH44"` (the way has no `name` tag, so its `ref` becomes the display
name), and reports one matched toll booth. -/
theorem c1_scenario_output :
    parse_elements c1_input = ⟨[c1_record], 1⟩ := by
  decide

/-- C10: `parse_elements` is deterministic — equal element lists produce
identical results, including the matched-way choices reflected in the rows
and the reported matched count. -/
theorem parse_elements_deterministic (es1 es2 : List Element)
    (h : es1 = es2) :
    parse_elements es1 = parse_elements es2 ∧
    (parse_elements es1).rows = (parse_elements es2).rows ∧
    (parse_elements es1).matched = (parse_elements es2).matched := by
  subst h
  exact ⟨rfl, rfl, rfl⟩

theorem parse_elements_deterministic_witness :
    parse_elements c1_input = parse_elements c1_input ∧
    (parse_elements c1_input).rows = (parse_elements c1_input).rows ∧
    (parse_elements c1_input).matched = (parse_elements c1_input).matched :=
  parse_elements_deterministic c1_input c1_input rfl

/-- C8: the output osm_ids are pairwise distinct, and a value occurs among
them exactly when it is the identifier of some toll-booth node element of
the input — a 1:1 correspondence with the distinct toll-node identifiers,
even when the input repeats node identifiers. -/
theorem toll_record_ids_unique (es : List Element) :
    ((parse_elements es).rows.map TollRecord.osm_id).Nodup ∧
    ∀ k, k ∈ (parse_elements es).rows.map TollRecord.osm_id ↔
      ∃ el ∈ es, isTollBoothNode el = true ∧ Element.eid el = k := by
  have hmap : (parse_elements es).rows.map TollRecord.osm_id =
      keys (parseState es).toll_nodes := by
    show ((parseState es).toll_nodes.map
      (fun p => mkRecord p.2 (matchToll (parseState es) p.1))).map
        TollRecord.osm_id = _
    rw [List.map_map]
    exact List.map_congr_left (fun p hp => toll_nodes_osm_id es p hp)
  constructor
  · rw [hmap]; exact nodup_keys_toll_nodes es
  · intro k; rw [hmap]; exact mem_keys_toll_nodes es k

/-- C5: a toll node contained in no highway-classified way's member list —
ways without a highway tag never even enter the way dicts — is unmatched:
its record carries null highway_type, highway_name and highway_ref. -/
theorem unmatched_toll_null_highway_fields (es : List Element) (tid : Nat)
    (td : TollNodeData)
    (hlook : dlookup tid (parseState es).toll_nodes = some td)
    (hno : ∀ el ∈ es, isHighwayWay el = true → tid ∉ wayNodesOf el) :
    matchToll (parseState es) tid = none ∧
    ∃ r ∈ (parse_elements es).rows, r.osm_id = td.osm_id ∧
      r.highway_type = none ∧ r.highway_name = none ∧
      r.highway_ref = none := by
  have hfind : (parseState es).way_nodes.find? (fun p => tid ∈ p.2) = none := by
    rw [List.find?_eq_none]
    intro q hq
    rcases way_nodes_source es ⟨[], [], []⟩ q hq with hmem |
      ⟨tgs, nodes, hmem, hh, hv⟩
    · simp at hmem
    · have hhw : isHighwayWay (Element.way q.1 tgs nodes) = true := by
        simpa [isHighwayWay] using hh
      have hnot := hno _ hmem hhw
      rw [show wayNodesOf (Element.way q.1 tgs nodes) = nodes.getD []
        from rfl] at hnot
      rw [hv]
      simpa using hnot
  have hmatch : matchToll (parseState es) tid = none := by
    simp [matchToll, hfind]
  refine ⟨hmatch, ?_⟩
  have hmem := mkRecord_mem_rows es tid td hlook
  rw [hmatch] at hmem
  exact ⟨mkRecord td none, hmem, rfl, rfl, rfl, rfl⟩

/-- Input for the C5 witness: a toll node contained only in a way that
lacks a highway tag. -/
def c5_input : List Element :=
  [.node 1 (some [("barrier", "toll_booth")]) none none,
   .way 50 (some [("name", "Service Road")]) (some [1])]

theorem unmatched_toll_null_highway_fields_witness :
    matchToll (parseState c5_input) 1 = none ∧
    ∃ r ∈ (parse_elements c5_input).rows,
      r.osm_id = (⟨1, none, none, [("barrier", "toll_booth")]⟩ :
        TollNodeData).osm_id ∧
      r.highway_type = none ∧ r.highway_name = none ∧
      r.highway_ref = none :=
  unmatched_toll_null_highway_fields c5_input 1
    ⟨1, none, none, [("barrier", "toll_booth")]⟩ (by decide) (by decide)

/-- C3: when a toll node's identifier occurs in the member list of a way
in `way_nodes` and in none of the entries before it, the scan returns
exactly that way (whatever comes after it), its attributes are found in
`ways`, and the record is built from them. -/
theorem first_match_wins (es : List Element) (tid : Nat) (td : TollNodeData)
    (l1 : List (Nat × List Nat)) (wid : Nat) (ns : List Nat)
    (l2 : List (Nat × List Nat))
    (hlook : dlookup tid (parseState es).toll_nodes = some td)
    (hsplit : (parseState es).way_nodes = l1 ++ (wid, ns) :: l2)
    (hl1 : ∀ q ∈ l1, tid ∉ q.2) (hns : tid ∈ ns) :
    ∃ hi, dlookup wid (parseState es).ways = some hi ∧
      matchToll (parseState es) tid = some hi ∧
      mkRecord td (some hi) ∈ (parse_elements es).rows := by
  have hfind : (parseState es).way_nodes.find? (fun p => tid ∈ p.2) =
      some (wid, ns) := by
    rw [hsplit]
    refine find?_middle _ l1 (wid, ns) l2 ?_ (by simpa using hns)
    intro y hy
    simpa using hl1 y hy
  have hmemk : wid ∈ keys (parseState es).way_nodes := by
    rw [hsplit]
    simp [keys]
  have hsome : (dlookup wid (parseState es).ways).isSome = true := by
    rw [ways_way_nodes_keys, dlookup_isSome_iff]
    exact hmemk
  obtain ⟨hi, hhi⟩ := Option.isSome_iff_exists.mp hsome
  have hmatch : matchToll (parseState es) tid = some hi := by
    simp [matchToll, hfind, hhi]
  refine ⟨hi, hhi, hmatch, ?_⟩
  have hmem := mkRecord_mem_rows es tid td hlook
  rw [hmatch] at hmem
  exact hmem

/-- Input for the C3 witness: one toll node shared by two highway ways. -/
def c3_input : List Element :=
  [.node 1 (some [("barrier", "toll_booth")]) none none,
   .way 10 (some [("highway", "primary"), ("name", "First Road")])
     (some [1]),
   .way 20 (some [("highway", "secondary"), ("name", "Second Road")])
     (some [1])]

theorem first_match_wins_witness :
    ∃ hi, dlookup 10 (parseState c3_input).ways = some hi ∧
      matchToll (parseState c3_input) 1 = some hi ∧
      mkRecord ⟨1, none, none, [("barrier", "toll_booth")]⟩ (some hi) ∈
        (parse_elements c3_input).rows :=
  first_match_wins c3_input 1 ⟨1, none, none, [("barrier", "toll_booth")]⟩
    [] 10 [1] [(20, [1])] (by decide) (by decide) (by decide) (by decide)

/-- Input for the C2 counterexample: the matched way carries a `name` tag
whose value is the empty string. -/
def c2_cex_input : List Element :=
  [.node 5 (some [("barrier", "toll_booth")]) (some 1) (some 2),
   .way 7 (some [("highway", "motorway"), ("name", ""), ("ref", "NH1")])
     (some [5])]

/-- C2 counterexample: the way's `name` tag is present (with value `""`),
yet the record's highway_name is the `ref` tag `"NH1"`, not that name tag:
a present-but-empty `name` is skipped by the Python truthiness test. -/
theorem highway_display_name_claim_false :
    Tags.get [("highway", "motorway"), ("name", ""), ("ref", "NH1")]
      "name" = some "" ∧
    (parse_elements c2_cex_input).rows.map TollRecord.highway_name =
      [some "NH1"] ∧
    (some "NH1" : Option String) ≠ some "" := by
  decide

/-- C2 (amended): every stored way attribute entry comes from a
highway-classified way element and uses as display name the way's `name`
tag when present and nonempty, else its `ref` tag (null when both are
absent, since `pyOr none none = none`); and every toll node matched to a
way yields a record whose highway_name is exactly that stored display
name, the matched attributes being an entry of the `ways` dict. -/
theorem highway_display_name :
    (∀ (es : List Element) (q : Nat × WayData), q ∈ (parseState es).ways →
      ∃ tgs nodes, Element.way q.1 tgs nodes ∈ es ∧
        truthy (Tags.get (tgs.getD []) "highway") = true ∧
        q.2.name = (if truthy (Tags.get (tgs.getD []) "name") = true
          then Tags.get (tgs.getD []) "name"
          else Tags.get (tgs.getD []) "ref")) ∧
    (∀ (es : List Element) (tid : Nat) (td : TollNodeData) (hi : WayData),
      dlookup tid (parseState es).toll_nodes = some td →
      matchToll (parseState es) tid = some hi →
      (∃ wid, (wid, hi) ∈ (parseState es).ways) ∧
      ∃ r ∈ (parse_elements es).rows,
        r.osm_id = td.osm_id ∧ r.highway_name = hi.name) := by
  constructor
  · intro es q hq
    rcases ways_source es ⟨[], [], []⟩ q hq with hmem |
      ⟨tgs, nodes, hmem, hh, hv⟩
    · simp at hmem
    · refine ⟨tgs, nodes, hmem, hh, ?_⟩
      rw [hv, pyOr]
  · intro es tid td hi hlook hmatch
    constructor
    · rcases hq : (parseState es).way_nodes.find? (fun p => tid ∈ p.2) with
        _ | ⟨wid, ns⟩
      · simp [matchToll, hq] at hmatch
      · simp only [matchToll, hq] at hmatch
        exact ⟨wid, mem_of_dlookup_eq_some _ _ _ hmatch⟩
    · have hmem := mkRecord_mem_rows es tid td hlook
      rw [hmatch] at hmem
      exact ⟨mkRecord td (some hi), hmem, rfl, rfl⟩

theorem highway_display_name_witness :
    (∃ tgs nodes, Element.way 7 tgs nodes ∈ c2_cex_input ∧
      truthy (Tags.get (tgs.getD []) "highway") = true ∧
      (⟨"motorway", some "NH1", some "NH1", none, none⟩ : WayData).name =
        (if truthy (Tags.get (tgs.getD []) "name") = true
          then Tags.get (tgs.getD []) "name"
          else Tags.get (tgs.getD []) "ref")) ∧
    ((∃ wid, (wid, (⟨"motorway", some "NH1", some "NH1", none, none⟩ :
        WayData)) ∈ (parseState c2_cex_input).ways) ∧
      ∃ r ∈ (parse_elements c2_cex_input).rows,
        r.osm_id = (⟨5, some 1, some 2, [("barrier", "toll_booth")]⟩ :
          TollNodeData).osm_id ∧
        r.highway_name = (⟨"motorway", some "NH1", some "NH1", none,
          none⟩ : WayData).name) :=
  ⟨highway_display_name.1 c2_cex_input
      (7, ⟨"motorway", some "NH1", some "NH1", none, none⟩) (by decide),
    highway_display_name.2 c2_cex_input 5
      ⟨5, some 1, some 2, [("barrier", "toll_booth")]⟩
      ⟨"motorway", some "NH1", some "NH1", none, none⟩
      (by decide) (by decide)⟩

/-- Input for the C4 counterexample: the toll node carries a `name` tag
whose value is the empty string while the matched way is named. -/
def c4_cex_input : List Element :=
  [.node 5 (some [("barrier", "toll_booth"), ("name", "")]) (some 1)
    (some 2),
   .way 7 (some [("highway", "trunk"), ("name", "Highway Y")]) (some [5])]

/-- C4 counterexample: the node's `name` tag is present (with value `""`),
yet the record's name falls through to the way's name `"Highway Y"`: a
present-but-empty node `name` is skipped by the Python truthiness test. -/
theorem record_name_claim_false :
    Tags.get [("barrier", "toll_booth"), ("name", "")] "name" = some "" ∧
    (parse_elements c4_cex_input).rows.map TollRecord.name =
      [some "Highway Y"] ∧
    (some "Highway Y" : Option String) ≠ some "" := by
  decide

/-- The toll node is named, the matched way too. -/
def c4_scenario1 : List Element :=
  [.node 1 (some [("barrier", "toll_booth"), ("name", "Booth X")])
    (some 1) (some 2),
   .way 9 (some [("highway", "trunk"), ("name", "Highway Y")]) (some [1])]

/-- The toll node has neither `name` nor `ref`; the matched way is named. -/
def c4_scenario2 : List Element :=
  [.node 1 (some [("barrier", "toll_booth")]) (some 1) (some 2),
   .way 9 (some [("highway", "trunk"), ("name", "Highway Y")]) (some [1])]

/-- C4 (amended): for a matched toll node the record's name is the node's
`name` tag when present and nonempty, else the node's `ref` tag when
present and nonempty, else the matched way's display name; in particular a
node named "Booth X" on a way named "Highway Y" yields "Booth X", and a
node with neither tag on that way yields "Highway Y". -/
theorem record_name_precedence :
    (∀ (es : List Element) (tid : Nat) (td : TollNodeData) (hi : WayData),
      dlookup tid (parseState es).toll_nodes = some td →
      matchToll (parseState es) tid = some hi →
      ∃ r ∈ (parse_elements es).rows, r.osm_id = td.osm_id ∧
        (truthy (Tags.get td.tags "name") = true →
          r.name = Tags.get td.tags "name") ∧
        (truthy (Tags.get td.tags "name") = false →
          truthy (Tags.get td.tags "ref") = true →
          r.name = Tags.get td.tags "ref") ∧
        (truthy (Tags.get td.tags "name") = false →
          truthy (Tags.get td.tags "ref") = false → r.name = hi.name)) ∧
    (parse_elements c4_scenario1).rows.map TollRecord.name =
      [some "Booth X"] ∧
    (parse_elements c4_scenario2).rows.map TollRecord.name =
      [some "Highway Y"] := by
  refine ⟨?_, by decide, by decide⟩
  intro es tid td hi hlook hmatch
  have hmem := mkRecord_mem_rows es tid td hlook
  rw [hmatch] at hmem
  refine ⟨mkRecord td (some hi), hmem, rfl, ?_, ?_, ?_⟩
  · intro h1
    simp [mkRecord, pyOr, h1]
  · intro h1 h2
    simp [mkRecord, pyOr, h1, h2]
  · intro h1 h2
    simp [mkRecord, pyOr, h1, h2]

theorem record_name_precedence_witness :
    ∃ r ∈ (parse_elements c4_scenario1).rows,
      r.osm_id = (⟨1, some 1, some 2,
        [("barrier", "toll_booth"), ("name", "Booth X")]⟩ :
          TollNodeData).osm_id ∧
      (truthy (Tags.get (⟨1, some 1, some 2,
          [("barrier", "toll_booth"), ("name", "Booth X")]⟩ :
            TollNodeData).tags "name") = true →
        r.name = Tags.get (⟨1, some 1, some 2,
          [("barrier", "toll_booth"), ("name", "Booth X")]⟩ :
            TollNodeData).tags "name") ∧
      (truthy (Tags.get (⟨1, some 1, some 2,
          [("barrier", "toll_booth"), ("name", "Booth X")]⟩ :
            TollNodeData).tags "name") = false →
        truthy (Tags.get (⟨1, some 1, some 2,
          [("barrier", "toll_booth"), ("name", "Booth X")]⟩ :
            TollNodeData).tags "ref") = true →
        r.name = Tags.get (⟨1, some 1, some 2,
          [("barrier", "toll_booth"), ("name", "Booth X")]⟩ :
            TollNodeData).tags "ref") ∧
      (truthy (Tags.get (⟨1, some 1, some 2,
          [("barrier", "toll_booth"), ("name", "Booth X")]⟩ :
            TollNodeData).tags "name") = false →
        truthy (Tags.get (⟨1, some 1, some 2,
          [("barrier", "toll_booth"), ("name", "Booth X")]⟩ :
            TollNodeData).tags "ref") = false →
        r.name = (⟨"trunk", some "Highway Y", none, none, none⟩ :
          WayData).name) :=
  record_name_precedence.1 c4_scenario1 1
    ⟨1, some 1, some 2, [("barrier", "toll_booth"), ("name", "Booth X")]⟩
    ⟨"trunk", some "Highway Y", none, none, none⟩ (by decide) (by decide)

/-- C6: a list handed to the CSV writer or to `save_to_db` consists of
exactly the Matcher's records having both coordinates present: records
with a null latitude or longitude reach neither destination, and both
destinations receive only (unmodified) Matcher output rows. -/
theorem coords_filter (es : List Element) (csvOk dbOk : Bool)
    (l : List TollRecord) (r : TollRecord)
    (h : (mainRun (some es) csvOk dbOk).csvOut = some l ∨
      (mainRun (some es) csvOk dbOk).dbOut = some l) :
    r ∈ l ↔ r ∈ (parse_elements es).rows ∧
      r.lat.isSome = true ∧ r.lon.isSome = true := by
  have hl : l = validRecords es := by
    by_cases hdf : (validRecords es).length = 0
    · rcases h with h | h <;> simp [mainRun, hdf] at h
    · rcases h with h | h
      · by_cases hcsv : csvOk = true
        · cases dbOk <;> simp [mainRun, hdf, hcsv] at h <;> exact h.symm
        · have hcsv2 : csvOk = false := by
            cases csvOk
            · rfl
            · exact absurd rfl hcsv
          cases dbOk <;> simp [mainRun, hdf, hcsv2] at h
      · cases dbOk <;> simp [mainRun, hdf] at h <;> exact h.symm
  subst hl
  rw [validRecords, List.mem_filter]
  simp [Bool.and_eq_true]

theorem coords_filter_witness :
    c1_record ∈ [c1_record] ↔
      c1_record ∈ (parse_elements c1_input).rows ∧
      c1_record.lat.isSome = true ∧ c1_record.lon.isSome = true :=
  coords_filter c1_input true true [c1_record] c1_record
    (Or.inl (by decide))

/-- C7: the run exits nonzero exactly when the fetch failed, when no
record with both coordinates survives the filter, or when `save_to_db`
failed; the CSV write outcome never changes the exit status. -/
theorem exit_status_spec (fetched : Option (List Element))
    (csvOk dbOk : Bool) :
    ((mainRun fetched csvOk dbOk).exitCode ≠ 0 ↔
      (fetched = none ∨ ∃ es, fetched = some es ∧
        (validRecords es = [] ∨ dbOk = false))) ∧
    (mainRun fetched csvOk dbOk).exitCode =
      (mainRun fetched true dbOk).exitCode := by
  cases fetched with
  | none => simp [mainRun]
  | some es =>
    by_cases hdf : (validRecords es).length = 0
    · have hnil : validRecords es = [] := List.length_eq_zero.mp hdf
      constructor
      · simp [mainRun, hdf, hnil]
      · simp [mainRun, hdf]
    · have hnil : ¬ validRecords es = [] := by
        intro hh
        rw [hh] at hdf
        simp at hdf
      cases dbOk
      · constructor
        · simp [mainRun, hdf]
        · simp [mainRun, hdf]
      · constructor
        · simp [mainRun, hdf, hnil]
        · simp [mainRun, hdf]

/-- One step of the first loop treats an element the same when a missing
optional field is replaced by its Python default. -/
theorem parse_elements_congr_mid (x y : Element)
    (hxy : ∀ st, processElement st x = processElement st y)
    (l1 l2 : List Element) :
    parse_elements (l1 ++ x :: l2) = parse_elements (l1 ++ y :: l2) := by
  have hps : parseState (l1 ++ x :: l2) = parseState (l1 ++ y :: l2) := by
    simp only [parseState, parseStateFrom, List.foldl_append,
      List.foldl_cons]
    rw [hxy]
  simp [parse_elements, hps]

/-- C9: `parse_elements` is total over all well-typed element lists and
treats absent optional fields as their Python defaults: a node or way
without `tags` behaves as one with empty tags, a way without `nodes`
behaves as one with an empty member list, and a toll-booth node lacking
both coordinates is still retained in the output, its record carrying
null lat and lon. -/
theorem parse_total_missing_fields :
    (∀ (l1 l2 : List Element) (id : Nat) (lat lon : Option ℚ),
      parse_elements (l1 ++ Element.node id none lat lon :: l2) =
        parse_elements (l1 ++ Element.node id (some []) lat lon :: l2)) ∧
    (∀ (l1 l2 : List Element) (id : Nat) (nodes : Option (List Nat)),
      parse_elements (l1 ++ Element.way id none nodes :: l2) =
        parse_elements (l1 ++ Element.way id (some []) nodes :: l2)) ∧
    (∀ (l1 l2 : List Element) (id : Nat) (tags : Option Tags),
      parse_elements (l1 ++ Element.way id tags none :: l2) =
        parse_elements (l1 ++ Element.way id tags (some []) :: l2)) ∧
    (∀ (es : List Element) (id : Nat) (tgs : Tags),
      Tags.get tgs "barrier" = some "toll_booth" →
      ∃ r ∈ (parse_elements
          (es ++ [Element.node id (some tgs) none none])).rows,
        r.osm_id = id ∧ r.lat = none ∧ r.lon = none) := by
  refine ⟨?_, ?_, ?_, ?_⟩
  · intro l1 l2 id lat lon
    exact parse_elements_congr_mid (Element.node id none lat lon)
      (Element.node id (some []) lat lon) (fun st => rfl) l1 l2
  · intro l1 l2 id nodes
    exact parse_elements_congr_mid (Element.way id none nodes)
      (Element.way id (some []) nodes) (fun st => rfl) l1 l2
  · intro l1 l2 id tags
    refine parse_elements_congr_mid _ _ (fun st => ?_) l1 l2
    by_cases h : truthy (Tags.get (tags.getD []) "highway") = true
    · simp [processElement, h]
    · simp [processElement, h]
  · intro es id tgs hbar
    have hproc : processElement (parseState es)
        (Element.node id (some tgs) none none) =
        ⟨dinsert id ⟨id, none, none, tgs⟩ (parseState es).toll_nodes,
          (parseState es).ways, (parseState es).way_nodes⟩ := by
      simp [processElement, hbar]
    have hlook : dlookup id
        (parseState (es ++ [Element.node id (some tgs) none none])).toll_nodes
        = some ⟨id, none, none, tgs⟩ := by
      rw [parseState_append_singleton, hproc]
      show dlookup id (dinsert id _ _) = _
      rw [dlookup_dinsert]
      simp
    exact ⟨mkRecord ⟨id, none, none, tgs⟩
        (matchToll (parseState
          (es ++ [Element.node id (some tgs) none none])) id),
      mkRecord_mem_rows _ id _ hlook, rfl, rfl, rfl⟩

theorem parse_total_missing_fields_witness :
    ∃ r ∈ (parse_elements
        ([.way 50 (some [("highway", "trunk")]) (some [1])] ++
          [Element.node 1 (some [("barrier", "toll_booth")]) none
            none])).rows,
      r.osm_id = 1 ∧ r.lat = none ∧ r.lon = none :=
  parse_total_missing_fields.2.2.2
    [.way 50 (some [("highway", "trunk")]) (some [1])] 1
    [("barrier", "toll_booth")] (by decide)

end FetchTolls
